import Mathlib

/-!
# Verification of the greg-ng connection/identity subsystem

Shallow embedding of the identity pool (`src/util/id_pool.rs`), the
connection counter (`src/util/connection_counter.rs`, `src/main.rs`), and the
websocket session logic (`src/api/websocket_v1.rs`), together with proofs of
the specified properties.

Modelling conventions:
* Rust `u64` values are modelled as `ℕ`; arithmetic that Rust checks
  explicitly (`checked_add_signed`) is modelled with explicit `2 ^ 64` bounds.
* `BTreeSet<u64>` is modelled as `Finset ℕ`; `pop_first` is `Finset.min'`.
* The tokio `watch` channel of the pool is modelled as the list of values
  ever sent on it (the channel is created holding `0`).
* Fallible Rust calls return `Except`.
-/

set_option autoImplicit false

namespace Greg

/-- Decidable equality for `Except`, used to evaluate the embedded operations
on concrete inputs. -/
instance {ε α : Type} [DecidableEq ε] [DecidableEq α] : DecidableEq (Except ε α) := by
  intro x y
  cases x <;> cases y
  case error.error a b =>
    by_cases h : a = b
    · exact isTrue (by rw [h])
    · exact isFalse (by intro hc; cases hc; exact h rfl)
  case error.ok a b => exact isFalse (by intro hc; cases hc)
  case ok.error a b => exact isFalse (by intro hc; cases hc)
  case ok.ok a b =>
    by_cases h : a = b
    · exact isTrue (by rw [h])
    · exact isFalse (by intro hc; cases hc; exact h rfl)

/-! ## Identity pool (`src/util/id_pool.rs`) -/

/-- Rust enum `IdPoolError` from `id_pool.rs`. -/
inductive IdPoolError
  | NoFreeIds
  | IdNotInUse (id : ℕ)
  | IdOutOfBound (id : ℕ)
  deriving DecidableEq, Repr

/-- The state of an `IdPool`: `max_id`, the `BTreeSet` of free ids and the
high-water mark `id_count`.  The watch channel is modelled separately (see
`PoolRun`). -/
structure IdPool where
  max_id : ℕ
  free_ids : Finset ℕ
  id_count : ℕ
  deriving DecidableEq

/-- Rust `IdPool::new_with_max_limit(max_id)`. -/
def IdPool.new_with_max_limit (max_id : ℕ) : IdPool :=
  { max_id := max_id, free_ids := ∅, id_count := 0 }

/-- The method `IdPool::id_count(&self)`: `self.id_count - self.free_ids.len()`.
This is `u64` subtraction in the source; `ℕ` truncated subtraction agrees with
it exactly when it does not underflow (see claim C10). -/
def IdPool.idCountVal (p : IdPool) : ℕ :=
  p.id_count - p.free_ids.card

/-- Rust `IdPool::id_is_used(&self, id)`. -/
def IdPool.id_is_used (p : IdPool) (id : ℕ) : Except IdPoolError Bool :=
  if p.max_id < id then .error (.IdOutOfBound id)
  else if id ∈ p.free_ids then .ok false
  else .ok (decide (id ≤ p.id_count))

/-- Rust `IdPool::request_id(&mut self)`, returning the allocated id together with
the post state.  `BTreeSet::pop_first` removes and returns the least element. -/
def IdPool.request_id (p : IdPool) : Except IdPoolError (ℕ × IdPool) :=
  if h : p.free_ids.Nonempty then
    .ok (p.free_ids.min' h, { p with free_ids := p.free_ids.erase (p.free_ids.min' h) })
  else if p.id_count < p.max_id then
    .ok (p.id_count + 1, { p with id_count := p.id_count + 1 })
  else
    .error .NoFreeIds

/-- Rust `IdPool::release_id(&mut self, id)`, returning the post state. -/
def IdPool.release_id (p : IdPool) (id : ℕ) : Except IdPoolError IdPool :=
  match p.id_is_used id with
  | .error e => .error e
  | .ok false => .error (.IdNotInUse id)
  | .ok true => .ok { p with free_ids := insert id p.free_ids }

/-- A client-visible mutating operation on the pool. -/
inductive PoolOp
  | alloc
  | release (id : ℕ)
  deriving DecidableEq

/-- The pool state after one operation; a failing call leaves the state
unchanged (the error branches of `request_id`/`release_id` touch nothing). -/
def IdPool.stepPool (p : IdPool) : PoolOp → IdPool
  | .alloc =>
    match p.request_id with
    | .ok (_, p2) => p2
    | .error _ => p
  | .release id =>
    match p.release_id id with
    | .ok p2 => p2
    | .error _ => p

/-- A pool together with its observable history: `watch_log` is every value the
watch channel has held, oldest first (`watch::channel(0)` creates it holding
`0`); `alloc_ok` / `release_ok` count successful calls; `alloc_results` records
the ids returned by successful `request_id` calls, in order. -/
structure PoolRun where
  pool : IdPool
  watch_log : List ℕ
  alloc_ok : ℕ
  release_ok : ℕ
  alloc_results : List ℕ
  deriving DecidableEq

/-- The run state of a freshly constructed pool. -/
def PoolRun.init (max_id : ℕ) : PoolRun :=
  { pool := IdPool.new_with_max_limit max_id
    watch_log := [0]
    alloc_ok := 0
    release_ok := 0
    alloc_results := [] }

/-- One operation against the pool.  On success, `update_watch` sends
`self.id_count()` of the already-mutated pool (in the source the state change
precedes the `update_watch()` call); on failure nothing is sent. -/
def stepOp (s : PoolRun) : PoolOp → PoolRun
  | .alloc =>
    match s.pool.request_id with
    | .ok (id, p2) =>
        { s with
          pool := p2
          watch_log := s.watch_log ++ [p2.idCountVal]
          alloc_ok := s.alloc_ok + 1
          alloc_results := s.alloc_results ++ [id] }
    | .error _ => s
  | .release id =>
    match s.pool.release_id id with
    | .ok p2 =>
        { s with
          pool := p2
          watch_log := s.watch_log ++ [p2.idCountVal]
          release_ok := s.release_ok + 1 }
    | .error _ => s

/-- Run a sequence of operations. -/
def runOps (s : PoolRun) (ops : List PoolOp) : PoolRun :=
  ops.foldl stepOp s

/-- The identities currently outstanding (issued and not sitting in the free
set): the issued ids are exactly `1, …, id_count`. -/
def IdPool.outstanding (p : IdPool) : Finset ℕ :=
  (Finset.Icc 1 p.id_count) \ p.free_ids

/-- The state invariant maintained by paired use of the pool: every free id was
issued (lies in `1, …, id_count`) and the high-water mark respects capacity. -/
def IdPool.Inv (p : IdPool) : Prop :=
  p.free_ids ⊆ Finset.Icc 1 p.id_count ∧ p.id_count ≤ p.max_id

/-- Traces in which every release targets a currently outstanding id: one
previously returned by a successful allocate and not released since. -/
inductive Paired : IdPool → List PoolOp → Prop
  | nil (p : IdPool) : Paired p []
  | alloc (p : IdPool) (rest : List PoolOp) :
      Paired (p.stepPool .alloc) rest → Paired p (.alloc :: rest)
  | release (p : IdPool) (id : ℕ) (rest : List PoolOp) :
      id ∈ p.outstanding →
      Paired (p.stepPool (.release id)) rest → Paired p (.release id :: rest)

/-! ### Basic behaviour of the pool operations -/

theorem IdPool.request_id_of_nonempty (p : IdPool) (h : p.free_ids.Nonempty) :
    p.request_id = .ok (p.free_ids.min' h,
      { p with free_ids := p.free_ids.erase (p.free_ids.min' h) }) := by
  simp [IdPool.request_id, h]

theorem IdPool.request_id_of_empty_lt (p : IdPool) (h : p.free_ids = ∅)
    (h2 : p.id_count < p.max_id) :
    p.request_id = .ok (p.id_count + 1, { p with id_count := p.id_count + 1 }) := by
  simp [IdPool.request_id, h, h2]

theorem IdPool.request_id_of_full (p : IdPool) (h : p.free_ids = ∅)
    (h2 : ¬ p.id_count < p.max_id) :
    p.request_id = .error .NoFreeIds := by
  simp [IdPool.request_id, h, h2]

theorem IdPool.release_id_of_outstanding (p : IdPool) (id : ℕ) (hInv : p.Inv)
    (h : id ∈ p.outstanding) :
    p.release_id id = .ok { p with free_ids := insert id p.free_ids } := by
  obtain ⟨hicc, hnotfree⟩ := Finset.mem_sdiff.mp h
  obtain ⟨h1, h2⟩ := Finset.mem_Icc.mp hicc
  have hmax : id ≤ p.max_id := le_trans h2 hInv.2
  simp [IdPool.release_id, IdPool.id_is_used, not_lt.mpr hmax, hnotfree, h2]

theorem IdPool.Inv.card_le {p : IdPool} (h : p.Inv) : p.free_ids.card ≤ p.id_count := by
  have := Finset.card_le_card h.1
  simpa using this

/-! ### Effect of one successful or failing operation on the run state -/

theorem stepOp_alloc_of_ok (s : PoolRun) (id : ℕ) (p2 : IdPool)
    (h : s.pool.request_id = .ok (id, p2)) :
    stepOp s .alloc =
      { s with
        pool := p2
        watch_log := s.watch_log ++ [p2.idCountVal]
        alloc_ok := s.alloc_ok + 1
        alloc_results := s.alloc_results ++ [id] } := by
  simp [stepOp, h]

theorem stepOp_alloc_of_error (s : PoolRun) (e : IdPoolError)
    (h : s.pool.request_id = .error e) : stepOp s .alloc = s := by
  simp [stepOp, h]

theorem stepOp_release_of_ok (s : PoolRun) (id : ℕ) (p2 : IdPool)
    (h : s.pool.release_id id = .ok p2) :
    stepOp s (.release id) =
      { s with
        pool := p2
        watch_log := s.watch_log ++ [p2.idCountVal]
        release_ok := s.release_ok + 1 } := by
  simp [stepOp, h]

theorem stepOp_release_of_error (s : PoolRun) (id : ℕ) (e : IdPoolError)
    (h : s.pool.release_id id = .error e) : stepOp s (.release id) = s := by
  simp [stepOp, h]

theorem stepOp_pool (s : PoolRun) (op : PoolOp) :
    (stepOp s op).pool = s.pool.stepPool op := by
  cases op with
  | alloc =>
    cases h : s.pool.request_id with
    | ok v => cases v; simp [stepOp, IdPool.stepPool, h]
    | error e => simp [stepOp, IdPool.stepPool, h]
  | release id =>
    cases h : s.pool.release_id id with
    | ok p2 => simp [stepOp, IdPool.stepPool, h]
    | error e => simp [stepOp, IdPool.stepPool, h]

/-! ### Occupancy arithmetic under the invariant -/

theorem IdPool.idCountVal_erase_min {p : IdPool} (hInv : p.Inv) (h : p.free_ids.Nonempty) :
    ({ p with free_ids := p.free_ids.erase (p.free_ids.min' h) } : IdPool).idCountVal
      = p.idCountVal + 1 := by
  have hcard : (p.free_ids.erase (p.free_ids.min' h)).card = p.free_ids.card - 1 :=
    Finset.card_erase_of_mem (p.free_ids.min'_mem h)
  have hpos : 0 < p.free_ids.card := Finset.card_pos.mpr h
  have hle : p.free_ids.card ≤ p.id_count := hInv.card_le
  simp only [IdPool.idCountVal, hcard]
  omega

theorem IdPool.idCountVal_fresh {p : IdPool} (h : p.free_ids = ∅) :
    ({ p with id_count := p.id_count + 1 } : IdPool).idCountVal = p.idCountVal + 1 := by
  simp [IdPool.idCountVal, h]

theorem IdPool.idCountVal_insert {p : IdPool} (hInv : p.Inv) {id : ℕ}
    (h : id ∈ p.outstanding) :
    ({ p with free_ids := insert id p.free_ids } : IdPool).idCountVal + 1
      = p.idCountVal := by
  obtain ⟨hicc, hnotfree⟩ := Finset.mem_sdiff.mp h
  have hcard : (insert id p.free_ids).card = p.free_ids.card + 1 :=
    Finset.card_insert_of_not_mem hnotfree
  have hsub : insert id p.free_ids ⊆ Finset.Icc 1 p.id_count :=
    Finset.insert_subset hicc hInv.1
  have hle : (insert id p.free_ids).card ≤ p.id_count := by
    have := Finset.card_le_card hsub
    simpa using this
  simp only [IdPool.idCountVal, hcard] at *
  omega

/-! ### Invariant preservation -/

theorem IdPool.Inv.new (c : ℕ) : (IdPool.new_with_max_limit c).Inv := by
  constructor
  · simp [IdPool.new_with_max_limit]
  · simp [IdPool.new_with_max_limit]

theorem IdPool.Inv.erase_min {p : IdPool} (hInv : p.Inv) (h : p.free_ids.Nonempty) :
    ({ p with free_ids := p.free_ids.erase (p.free_ids.min' h) } : IdPool).Inv := by
  refine ⟨?_, hInv.2⟩
  exact (Finset.erase_subset _ _).trans hInv.1

theorem IdPool.Inv.fresh {p : IdPool} (_hInv : p.Inv) (h : p.free_ids = ∅)
    (h2 : p.id_count < p.max_id) :
    ({ p with id_count := p.id_count + 1 } : IdPool).Inv := by
  refine ⟨?_, h2⟩
  simp [h]

theorem IdPool.Inv.insert_outstanding {p : IdPool} (hInv : p.Inv) {id : ℕ}
    (h : id ∈ p.outstanding) :
    ({ p with free_ids := insert id p.free_ids } : IdPool).Inv := by
  obtain ⟨hicc, _⟩ := Finset.mem_sdiff.mp h
  exact ⟨Finset.insert_subset hicc hInv.1, hInv.2⟩

/-- Effect of one paired step: the invariant and `max_id` are preserved and the
quantity `idCountVal + release_ok - alloc_ok` is conserved (stated additively
over `ℕ`). -/
theorem stepOp_good (s : PoolRun) (op : PoolOp)
    (hInv : s.pool.Inv)
    (hop : op = .alloc ∨ ∃ id, op = .release id ∧ id ∈ s.pool.outstanding) :
    (stepOp s op).pool.Inv ∧
    (stepOp s op).pool.max_id = s.pool.max_id ∧
    (stepOp s op).pool.idCountVal + (stepOp s op).release_ok + s.alloc_ok
      = (stepOp s op).alloc_ok + s.pool.idCountVal + s.release_ok := by
  rcases hop with rfl | ⟨id, rfl, hmem⟩
  · by_cases h : s.pool.free_ids.Nonempty
    · rw [stepOp_alloc_of_ok s _ _ (s.pool.request_id_of_nonempty h)]
      refine ⟨hInv.erase_min h, rfl, ?_⟩
      have := IdPool.idCountVal_erase_min hInv h
      simp only [this]
      omega
    · have hempty : s.pool.free_ids = ∅ := Finset.not_nonempty_iff_eq_empty.mp h
      by_cases h2 : s.pool.id_count < s.pool.max_id
      · rw [stepOp_alloc_of_ok s _ _ (s.pool.request_id_of_empty_lt hempty h2)]
        refine ⟨hInv.fresh hempty h2, rfl, ?_⟩
        have := IdPool.idCountVal_fresh (p := s.pool) hempty
        simp only [this]
        omega
      · rw [stepOp_alloc_of_error s _ (s.pool.request_id_of_full hempty h2)]
        exact ⟨hInv, rfl, by omega⟩
  · rw [stepOp_release_of_ok s id _ (s.pool.release_id_of_outstanding id hInv hmem)]
    refine ⟨hInv.insert_outstanding hmem, rfl, ?_⟩
    have hval := IdPool.idCountVal_insert hInv hmem
    simp only []
    omega

/-- Invariant, capacity and the occupancy accounting identity along any paired
trace. -/
theorem runOps_good (ops : List PoolOp) : ∀ (s : PoolRun), s.pool.Inv → Paired s.pool ops →
    (runOps s ops).pool.Inv ∧
    (runOps s ops).pool.max_id = s.pool.max_id ∧
    (runOps s ops).pool.idCountVal + (runOps s ops).release_ok + s.alloc_ok
      = (runOps s ops).alloc_ok + s.pool.idCountVal + s.release_ok := by
  induction ops with
  | nil =>
    intro s hInv _
    refine ⟨hInv, rfl, ?_⟩
    show s.pool.idCountVal + s.release_ok + s.alloc_ok
      = s.alloc_ok + s.pool.idCountVal + s.release_ok
    omega
  | cons op rest ih =>
    intro s hInv hp
    have hrun : runOps s (op :: rest) = runOps (stepOp s op) rest := rfl
    have hop : op = .alloc ∨ ∃ id, op = .release id ∧ id ∈ s.pool.outstanding := by
      cases hp with
      | alloc _ _ _ => exact Or.inl rfl
      | release _ id _ hmem _ => exact Or.inr ⟨id, rfl, hmem⟩
    obtain ⟨hInv2, hmax2, heq2⟩ := stepOp_good s op hInv hop
    have hrest : Paired (stepOp s op).pool rest := by
      rw [stepOp_pool]
      cases hp with
      | alloc _ _ h => exact h
      | release _ id _ _ h => exact h
    obtain ⟨hInv3, hmax3, heq3⟩ := ih (stepOp s op) hInv2 hrest
    rw [hrun]
    exact ⟨hInv3, hmax3.trans hmax2, by omega⟩

/-! ### Concrete runs: `n` allocations, then releasing the smallest `k` -/

/-- Running `j` allocations from a pool with empty free set and high-water mark
`m` (with `m + j` within capacity) issues the ids `m+1, …, m+j` in order. -/
theorem runOps_alloc_replicate (c : ℕ) :
    ∀ (j m : ℕ) (s : PoolRun), s.pool = ⟨c, ∅, m⟩ → m + j ≤ c →
      (runOps s (List.replicate j .alloc)).pool = ⟨c, ∅, m + j⟩ ∧
      (runOps s (List.replicate j .alloc)).alloc_results
        = s.alloc_results ++ List.range' (m + 1) j := by
  intro j
  induction j with
  | zero => intro m s hs _; simpa [runOps] using hs
  | succ j ih =>
    intro m s hs hle
    have hidc : s.pool.id_count = m := by rw [hs]
    have hreq : s.pool.request_id
        = .ok (m + 1, { s.pool with id_count := m + 1 }) := by
      have h0 : s.pool.free_ids = ∅ := by rw [hs]
      have h1 : s.pool.id_count < s.pool.max_id := by rw [hs]; show m < c; omega
      rw [IdPool.request_id_of_empty_lt s.pool h0 h1, hidc]
    have hstep := stepOp_alloc_of_ok s _ _ hreq
    have hrun : runOps s (List.replicate (j + 1) .alloc)
        = runOps (stepOp s .alloc) (List.replicate j .alloc) := by
      rw [List.replicate_succ]; rfl
    rw [hrun, hstep]
    obtain ⟨h1, h2⟩ := ih (m + 1)
      { s with
        pool := { s.pool with id_count := m + 1 }
        watch_log := s.watch_log ++ [({ s.pool with id_count := m + 1 } : IdPool).idCountVal]
        alloc_ok := s.alloc_ok + 1
        alloc_results := s.alloc_results ++ [m + 1] }
      (by rw [hs]) (by omega)
    refine ⟨?_, ?_⟩
    · rw [h1]; congr 1; omega
    · rw [h2]
      simp [List.range'_succ, List.append_assoc]

/-- Releasing `i+1, …, i+k` in increasing order from a pool whose free set is
`{1, …, i}` and whose high-water mark `n` covers them grows the free set to
`{1, …, i+k}`; the allocation history is untouched. -/
theorem runOps_release_range (c n : ℕ) :
    ∀ (k i : ℕ) (s : PoolRun), s.pool = ⟨c, Finset.Icc 1 i, n⟩ → i + k ≤ n → n ≤ c →
      (runOps s ((List.range' (i + 1) k).map PoolOp.release)).pool
        = ⟨c, Finset.Icc 1 (i + k), n⟩ ∧
      (runOps s ((List.range' (i + 1) k).map PoolOp.release)).alloc_results
        = s.alloc_results := by
  intro k
  induction k with
  | zero => intro i s hs _ _; simpa [runOps] using hs
  | succ k ih =>
    intro i s hs hk hn
    have hInv : s.pool.Inv := by
      rw [hs]
      refine ⟨?_, ?_⟩
      · show Finset.Icc 1 i ⊆ Finset.Icc 1 n
        exact Finset.Icc_subset_Icc le_rfl (by omega)
      · show n ≤ c
        exact hn
    have hmem : (i + 1) ∈ s.pool.outstanding := by
      rw [hs]
      show (i + 1) ∈ (Finset.Icc 1 n) \ (Finset.Icc 1 i)
      simp only [Finset.mem_sdiff, Finset.mem_Icc]
      omega
    have hrel := s.pool.release_id_of_outstanding (i + 1) hInv hmem
    have hstep := stepOp_release_of_ok s _ _ hrel
    have hmap : (List.range' (i + 1) (k + 1)).map PoolOp.release
        = PoolOp.release (i + 1) :: (List.range' (i + 2) k).map PoolOp.release := by
      rw [List.range'_succ]; rfl
    have hins : insert (i + 1) (Finset.Icc 1 i) = Finset.Icc 1 (i + 1) := by
      ext x
      simp only [Finset.mem_insert, Finset.mem_Icc]
      omega
    rw [hmap]
    have hrun : runOps s (PoolOp.release (i + 1)
          :: (List.range' (i + 2) k).map PoolOp.release)
        = runOps (stepOp s (.release (i + 1)))
            ((List.range' (i + 2) k).map PoolOp.release) := rfl
    rw [hrun, hstep]
    obtain ⟨h1, h2⟩ := ih (i + 1)
      { s with
        pool := { s.pool with free_ids := insert (i + 1) s.pool.free_ids }
        watch_log := s.watch_log
          ++ [({ s.pool with free_ids := insert (i + 1) s.pool.free_ids } : IdPool).idCountVal]
        release_ok := s.release_ok + 1 }
      (by
        show ({ s.pool with free_ids := insert (i + 1) s.pool.free_ids } : IdPool)
          = ⟨c, Finset.Icc 1 (i + 1), n⟩
        rw [hs, ← hins]) (by omega) hn
    refine ⟨?_, h2⟩
    have heq : i + 1 + k = i + (k + 1) := by omega
    rw [heq] at h1
    exact h1

/-! ## Claim C1: allocation behaviour of the identity pool -/

/-- C1: `request_id` returns the least element of the free set when it is
non-empty (removing it from the free set); with the free set empty and the
high-water mark below capacity it increments the high-water mark and returns
the new value; with the free set empty and the high-water mark at capacity it
fails with `NoFreeIds` and leaves the pool state unchanged.  Moreover, from a
fresh pool of capacity `c`, `n ≤ c` allocations return `1, …, n`, and after
releasing the smallest `k` of them (`1 ≤ k ≤ n`) the next allocation returns
`1`, the smallest released identity. -/
theorem C1_request_id (p : IdPool) (c n k : ℕ) :
    (∀ _hne : p.free_ids.Nonempty, ∃ m, IsLeast (↑p.free_ids : Set ℕ) m ∧
        p.request_id = .ok (m, { p with free_ids := p.free_ids.erase m })) ∧
    (p.free_ids = ∅ → p.id_count < p.max_id →
        p.request_id = .ok (p.id_count + 1, { p with id_count := p.id_count + 1 })) ∧
    (p.free_ids = ∅ → p.id_count = p.max_id →
        p.request_id = .error .NoFreeIds ∧ p.stepPool .alloc = p) ∧
    (1 ≤ k → k ≤ n → n ≤ c →
        (runOps (PoolRun.init c)
            (List.replicate n .alloc ++ (List.range' 1 k).map PoolOp.release)).alloc_results
          = List.range' 1 n ∧
        ∃ q, (runOps (PoolRun.init c)
            (List.replicate n .alloc ++ (List.range' 1 k).map PoolOp.release)).pool.request_id
          = .ok (1, q)) := by
  refine ⟨?_, ?_, ?_, ?_⟩
  · intro h
    refine ⟨p.free_ids.min' h, ⟨?_, ?_⟩, p.request_id_of_nonempty h⟩
    · exact p.free_ids.min'_mem h
    · intro x hx
      exact p.free_ids.min'_le x hx
  · exact p.request_id_of_empty_lt
  · intro h h2
    have herr := p.request_id_of_full h (by omega)
    refine ⟨herr, ?_⟩
    simp [IdPool.stepPool, herr]
  · intro hk hkn hnc
    have hsplit : runOps (PoolRun.init c)
          (List.replicate n .alloc ++ (List.range' 1 k).map PoolOp.release)
        = runOps (runOps (PoolRun.init c) (List.replicate n .alloc))
            ((List.range' 1 k).map PoolOp.release) := by
      simp [runOps, List.foldl_append]
    obtain ⟨ha1, ha2⟩ :=
      runOps_alloc_replicate c n 0 (PoolRun.init c) rfl (by omega)
    have ha1' : (runOps (PoolRun.init c) (List.replicate n .alloc)).pool
        = ⟨c, ∅, n⟩ := by rw [ha1]; norm_num
    have ha2' : (runOps (PoolRun.init c) (List.replicate n .alloc)).alloc_results
        = List.range' 1 n := by rw [ha2]; rfl
    have hpool1 : (runOps (PoolRun.init c) (List.replicate n .alloc)).pool
        = ⟨c, Finset.Icc 1 0, n⟩ := by
      rw [ha1', Finset.Icc_eq_empty (by omega : ¬ (1 : ℕ) ≤ 0)]
    obtain ⟨hr1, hr2⟩ := runOps_release_range c n k 0
      (runOps (PoolRun.init c) (List.replicate n .alloc)) hpool1 (by omega) hnc
    simp only [Nat.zero_add] at hr1 hr2
    have hfinal : (⟨c, Finset.Icc 1 k, n⟩ : IdPool).request_id
        = .ok (1, ⟨c, (Finset.Icc 1 k).erase 1, n⟩) := by
      have hne : ((⟨c, Finset.Icc 1 k, n⟩ : IdPool).free_ids).Nonempty :=
        ⟨1, Finset.mem_Icc.mpr ⟨le_rfl, hk⟩⟩
      have hmin : (⟨c, Finset.Icc 1 k, n⟩ : IdPool).free_ids.min' hne = 1 := by
        apply le_antisymm
        · exact Finset.min'_le _ 1 (Finset.mem_Icc.mpr ⟨le_rfl, hk⟩)
        · exact Finset.le_min' _ _ _ (fun y hy => (Finset.mem_Icc.mp hy).1)
      rw [IdPool.request_id_of_nonempty _ hne, hmin]
    constructor
    · rw [hsplit, hr2, ha2']
    · refine ⟨⟨c, (Finset.Icc 1 k).erase 1, n⟩, ?_⟩
      rw [hsplit, hr1, hfinal]

/-- Witness for C1 at concrete pools: a pool with free set `{2, 5}`, a pool
with free set `∅` below capacity, an exhausted pool, and the scenario
`c = 10`, `n = 3`, `k = 2`. -/
theorem C1_request_id_witness :
    (∃ m, IsLeast (↑({2, 5} : Finset ℕ) : Set ℕ) m ∧
        (⟨10, {2, 5}, 6⟩ : IdPool).request_id
          = .ok (m, ⟨10, ({2, 5} : Finset ℕ).erase m, 6⟩)) ∧
    ((⟨10, ∅, 3⟩ : IdPool).request_id = .ok (4, ⟨10, ∅, 4⟩)) ∧
    ((⟨10, ∅, 10⟩ : IdPool).request_id = .error .NoFreeIds ∧
        (⟨10, ∅, 10⟩ : IdPool).stepPool .alloc = ⟨10, ∅, 10⟩) ∧
    ((runOps (PoolRun.init 10)
        (List.replicate 3 .alloc ++ (List.range' 1 2).map PoolOp.release)).alloc_results
      = List.range' 1 3 ∧
     ∃ q, (runOps (PoolRun.init 10)
        (List.replicate 3 .alloc ++ (List.range' 1 2).map PoolOp.release)).pool.request_id
      = .ok (1, q)) := by
  refine ⟨?_, ?_, ?_, ?_⟩
  · exact (C1_request_id ⟨10, {2, 5}, 6⟩ 0 0 0).1 (by decide)
  · exact (C1_request_id ⟨10, ∅, 3⟩ 0 0 0).2.1 rfl (by decide)
  · exact (C1_request_id ⟨10, ∅, 10⟩ 0 0 0).2.2.1 rfl rfl
  · exact (C1_request_id ⟨0, ∅, 0⟩ 10 3 2).2.2.2 (by decide) (by decide) (by decide)

/-! ## Claim C3: occupancy accounting along paired traces -/

/-- C3: along any paired trace from a fresh pool of capacity `c` (each
release targets an id previously allocated and not yet released), the final
occupancy plus the number of successful releases equals the number of
successful allocates (so occupancy is their difference); occupancy equals the
high-water mark minus the free-set size; the free-set size never exceeds the
high-water mark (the difference is a true difference, never negative); and
occupancy never exceeds the capacity `c`. -/
theorem C3_occupancy (c : ℕ) (ops : List PoolOp)
    (hp : Paired (IdPool.new_with_max_limit c) ops) :
    (runOps (PoolRun.init c) ops).pool.idCountVal + (runOps (PoolRun.init c) ops).release_ok
        = (runOps (PoolRun.init c) ops).alloc_ok ∧
    (runOps (PoolRun.init c) ops).pool.idCountVal
        = (runOps (PoolRun.init c) ops).pool.id_count
          - (runOps (PoolRun.init c) ops).pool.free_ids.card ∧
    (runOps (PoolRun.init c) ops).pool.free_ids.card
        ≤ (runOps (PoolRun.init c) ops).pool.id_count ∧
    (runOps (PoolRun.init c) ops).pool.idCountVal ≤ c := by
  have hInv0 : (PoolRun.init c).pool.Inv := IdPool.Inv.new c
  obtain ⟨hInv, hmax, heq⟩ := runOps_good ops (PoolRun.init c) hInv0 hp
  have e1 : (PoolRun.init c).alloc_ok = 0 := rfl
  have e2 : (PoolRun.init c).release_ok = 0 := rfl
  have e3 : (PoolRun.init c).pool.idCountVal = 0 := rfl
  have h2 : (PoolRun.init c).pool.max_id = c := rfl
  refine ⟨by omega, rfl, hInv.card_le, ?_⟩
  have h1 : (runOps (PoolRun.init c) ops).pool.id_count
      ≤ (runOps (PoolRun.init c) ops).pool.max_id := hInv.2
  show (runOps (PoolRun.init c) ops).pool.id_count
      - (runOps (PoolRun.init c) ops).pool.free_ids.card ≤ c
  omega

/-- Witness for C3: capacity `3`, trace allocate, allocate, release 1. -/
theorem C3_occupancy_witness :
    (runOps (PoolRun.init 3) [.alloc, .alloc, .release 1]).pool.idCountVal
        + (runOps (PoolRun.init 3) [.alloc, .alloc, .release 1]).release_ok
      = (runOps (PoolRun.init 3) [.alloc, .alloc, .release 1]).alloc_ok ∧
    (runOps (PoolRun.init 3) [.alloc, .alloc, .release 1]).pool.idCountVal
        = (runOps (PoolRun.init 3) [.alloc, .alloc, .release 1]).pool.id_count
          - (runOps (PoolRun.init 3) [.alloc, .alloc, .release 1]).pool.free_ids.card ∧
    (runOps (PoolRun.init 3) [.alloc, .alloc, .release 1]).pool.free_ids.card
        ≤ (runOps (PoolRun.init 3) [.alloc, .alloc, .release 1]).pool.id_count ∧
    (runOps (PoolRun.init 3) [.alloc, .alloc, .release 1]).pool.idCountVal ≤ 3 :=
  C3_occupancy 3 [.alloc, .alloc, .release 1]
    (Paired.alloc _ _ (Paired.alloc _ _
      (Paired.release _ 1 _ (by decide) (Paired.nil _))))

/-! ## Claim C2: release-side validation (code bug at id 0) -/

/-- C2, code bug: `release_id(0)` on a fresh pool succeeds although `0` was
never issued: `id_is_used(0)` returns `Ok(true)` because `0 ≤ id_count` holds
in every state, so the not-in-use check misses id `0` and `0` is inserted into
the free set instead of the call failing with `IdNotInUse(0)`. -/
theorem C2_release_zero_accepted :
    (IdPool.new_with_max_limit 10).release_id 0 = .ok ⟨10, {0}, 0⟩ ∧
    (IdPool.new_with_max_limit 10).release_id 0 ≠ .error (.IdNotInUse 0) := by
  decide

/-! ## Claim C10: the subtraction in `id_count()` (code bug at id 0) -/

/-- C10, code bug: the state reached from a fresh pool by the single call
`release_id(0)` has a free set strictly larger than the high-water mark
`id_count`, so the `u64` subtraction `self.id_count - self.free_ids.len()` in
`id_count()` underflows there (and `update_watch`, which sends that value,
panics in a debug build). -/
theorem C10_free_exceeds_id_count :
    ((IdPool.new_with_max_limit 10).stepPool (.release 0)).id_count
      < ((IdPool.new_with_max_limit 10).stepPool (.release 0)).free_ids.card := by
  decide

/-! ## Claim C4: the occupancy watch signal -/

/-- C4: every successful `request_id`/`release_id` sends exactly one value
on the watch channel, synchronously, and that value is `id_count()` of the
post state; failed calls send nothing.  The trace allocate, allocate,
release 1 makes a subscriber observe `0 → 1 → 2 → 1`. -/
theorem C4_watch_updates (s : PoolRun) (id : ℕ) :
    (∀ i p2, s.pool.request_id = .ok (i, p2) →
        (stepOp s .alloc).watch_log
          = s.watch_log ++ [(stepOp s .alloc).pool.idCountVal]) ∧
    (∀ e, s.pool.request_id = .error e →
        (stepOp s .alloc).watch_log = s.watch_log) ∧
    (∀ p2, s.pool.release_id id = .ok p2 →
        (stepOp s (.release id)).watch_log
          = s.watch_log ++ [(stepOp s (.release id)).pool.idCountVal]) ∧
    (∀ e, s.pool.release_id id = .error e →
        (stepOp s (.release id)).watch_log = s.watch_log) ∧
    (runOps (PoolRun.init 10) [.alloc, .alloc, .release 1]).watch_log = [0, 1, 2, 1] := by
  refine ⟨?_, ?_, ?_, ?_, ?_⟩
  · intro i p2 h
    rw [stepOp_alloc_of_ok s i p2 h]
  · intro e h
    rw [stepOp_alloc_of_error s e h]
  · intro p2 h
    rw [stepOp_release_of_ok s id p2 h]
  · intro e h
    rw [stepOp_release_of_error s id e h]
  · decide

/-- Witness for C4: a successful and a failing allocate, a successful and a
failing release, each at a concrete run state. -/
theorem C4_watch_updates_witness :
    ((stepOp (PoolRun.init 5) .alloc).watch_log
        = (PoolRun.init 5).watch_log ++ [(stepOp (PoolRun.init 5) .alloc).pool.idCountVal]) ∧
    ((stepOp ⟨⟨0, ∅, 0⟩, [0], 0, 0, []⟩ .alloc).watch_log = [0]) ∧
    ((stepOp ⟨⟨5, {1}, 2⟩, [0], 0, 0, []⟩ (.release 2)).watch_log
        = [0] ++ [(stepOp ⟨⟨5, {1}, 2⟩, [0], 0, 0, []⟩ (.release 2)).pool.idCountVal]) ∧
    ((stepOp ⟨⟨5, {1}, 2⟩, [0], 0, 0, []⟩ (.release 1)).watch_log = [0]) ∧
    (runOps (PoolRun.init 10) [.alloc, .alloc, .release 1]).watch_log = [0, 1, 2, 1] := by
  refine ⟨?_, ?_, ?_, ?_, ?_⟩
  · exact (C4_watch_updates (PoolRun.init 5) 0).1 1 ⟨5, ∅, 1⟩ (by decide)
  · exact (C4_watch_updates ⟨⟨0, ∅, 0⟩, [0], 0, 0, []⟩ 0).2.1 .NoFreeIds (by decide)
  · exact (C4_watch_updates ⟨⟨5, {1}, 2⟩, [0], 0, 0, []⟩ 2).2.2.1 ⟨5, {2, 1}, 2⟩ (by decide)
  · exact (C4_watch_updates ⟨⟨5, {1}, 2⟩, [0], 0, 0, []⟩ 1).2.2.2.1 (.IdNotInUse 1) (by decide)
  · exact (C4_watch_updates (PoolRun.init 10) 0).2.2.2.2

/-! ## Connection counter (`src/util/connection_counter.rs`, `src/main.rs`) -/

/-- Rust enum `ConnectionEvent` from `connection_counter.rs`. -/
inductive ConnectionEvent
  | Connected
  | Disconnected
  deriving DecidableEq, Repr

/-- Rust `ConnectionEvent::to_i8`. -/
def ConnectionEvent.to_i8 : ConnectionEvent → Int
  | .Connected => 1
  | .Disconnected => -1

/-- Rust `u64::checked_add_signed`: `none` exactly when the mathematical sum leaves
the `u64` range `[0, 2^64)`. -/
def u64CheckedAddSigned (c : ℕ) (d : Int) : Option ℕ :=
  if 0 ≤ (c : Int) + d ∧ (c : Int) + d < 2 ^ 64 then some ((c : Int) + d).toNat
  else none

/-- One connection-counter update in `start_status_notifier_thread`
(`src/main.rs`): on `Some(new_count)` the counter takes that value; on `None`
a warning is logged and the counter is reset to `0`. -/
def connStep (connection_count : ℕ) (e : ConnectionEvent) : ℕ :=
  (u64CheckedAddSigned connection_count e.to_i8).getD 0

/-- The counter after a sequence of connection events; it starts at `0`. -/
def connCount (events : List ConnectionEvent) : ℕ :=
  events.foldl connStep 0

theorem connStep_connected (c : ℕ) (h : c + 1 < 2 ^ 64) :
    connStep c .Connected = c + 1 := by
  unfold connStep u64CheckedAddSigned
  simp only [ConnectionEvent.to_i8]
  rw [if_pos (by constructor <;> omega)]
  show ((c : Int) + 1).toNat = c + 1
  omega

theorem connStep_lt (c : ℕ) (e : ConnectionEvent) : connStep c e < 2 ^ 64 := by
  unfold connStep u64CheckedAddSigned
  by_cases h : 0 ≤ (c : Int) + e.to_i8 ∧ (c : Int) + e.to_i8 < 2 ^ 64
  · rw [if_pos h]
    show ((c : Int) + e.to_i8).toNat < 2 ^ 64
    obtain ⟨h1, h2⟩ := h
    omega
  · rw [if_neg h]
    show (0 : ℕ) < 2 ^ 64
    positivity

theorem foldl_connStep_lt : ∀ (evs : List ConnectionEvent) (c : ℕ), c < 2 ^ 64 →
    List.foldl connStep c evs < 2 ^ 64
  | [], _, h => h
  | e :: evs, c, _ => foldl_connStep_lt evs (connStep c e) (connStep_lt c e)

theorem foldl_connected (n : ℕ) : ∀ c : ℕ, c + n < 2 ^ 64 →
    List.foldl connStep c (List.replicate n .Connected) = c + n := by
  induction n with
  | zero => intro c _; simp
  | succ n ih =>
    intro c h
    rw [List.replicate_succ, List.foldl_cons]
    rw [connStep_connected c (by omega), ih (c + 1) (by omega)]
    omega

/-! ## Claim C9: the connection count (corrected for `u64` overflow) -/

/-- C9, counterexample to the claim as stated: the counter is a `u64`;
after `2^64` consecutive connects the failed checked addition at the last step
resets it to `0`, whereas "each connect adds one" would give `2^64`. -/
theorem C9_counterexample :
    connCount (List.replicate (2 ^ 64) .Connected) = 0 ∧ (0 : ℕ) ≠ 2 ^ 64 := by
  constructor
  · have hsplit : List.replicate (2 ^ 64) ConnectionEvent.Connected
        = List.replicate (2 ^ 64 - 1) .Connected ++ [.Connected] := by
      rw [← List.replicate_succ']
      congr 1
    rw [connCount, hsplit, List.foldl_append,
      foldl_connected (2 ^ 64 - 1) 0 (by norm_num), List.foldl_cons, Nat.zero_add]
    show List.foldl connStep (connStep (2 ^ 64 - 1) ConnectionEvent.Connected) [] = 0
    rw [List.foldl_nil]
    unfold connStep u64CheckedAddSigned
    simp only [ConnectionEvent.to_i8]
    rw [if_neg (by rintro ⟨h1, h2⟩; omega)]
    rfl
  · norm_num

/-- C9, amended: for counts in `u64` range: a connect increments the
counter unless the increment would overflow `u64`, a disconnect decrements it
unless the counter is zero, and in either failing case the checked addition
yields `None` and the counter is reset to `0` (with a logged warning, not a
crash); consequently the counter always stays in `[0, 2^64)` — in particular
it never underflows below zero. -/
theorem C9_conn_count (c : ℕ) (e : ConnectionEvent) (_hc : c < 2 ^ 64) :
    (e = .Connected → connStep c e = if c + 1 = 2 ^ 64 then 0 else c + 1) ∧
    (e = .Disconnected → connStep c e = if c = 0 then 0 else c - 1) ∧
    connStep c e < 2 ^ 64 ∧
    ∀ evs, connCount evs < 2 ^ 64 := by
  refine ⟨?_, ?_, connStep_lt c e, fun evs => foldl_connStep_lt evs 0 (by norm_num)⟩
  · rintro rfl
    by_cases h : c + 1 = 2 ^ 64
    · rw [if_pos h]
      unfold connStep u64CheckedAddSigned
      simp only [ConnectionEvent.to_i8]
      rw [if_neg (by rintro ⟨h1, h2⟩; omega)]
      rfl
    · rw [if_neg h]
      exact connStep_connected c (by omega)
  · rintro rfl
    by_cases h : c = 0
    · subst h
      rw [if_pos rfl]
      unfold connStep u64CheckedAddSigned
      simp only [ConnectionEvent.to_i8]
      rw [if_neg (by rintro ⟨h1, h2⟩; omega)]
      rfl
    · rw [if_neg h]
      unfold connStep u64CheckedAddSigned
      simp only [ConnectionEvent.to_i8]
      rw [if_pos (by constructor <;> omega)]
      show ((c : Int) + (-1)).toNat = c - 1
      omega

/-- Witness for C9 at `c = 5` (connect) and `c = 0` (disconnect at zero). -/
theorem C9_conn_count_witness :
    ((5 : ℕ) < 2 ^ 64 ∧ connStep 5 .Connected = if 5 + 1 = 2 ^ 64 then 0 else 5 + 1) ∧
    ((0 : ℕ) < 2 ^ 64 ∧ connStep 0 .Disconnected = if 0 = 0 then 0 else 0 - 1) :=
  ⟨⟨by norm_num, (C9_conn_count 5 .Connected (by norm_num)).1 rfl⟩,
   ⟨by norm_num, (C9_conn_count 0 .Disconnected (by norm_num)).2.1 rfl⟩⟩

/-! ## Claim C5: `PlaylistRemove` issues removals in descending order -/

/-- The backend calls issued by `handle_message` for
`WSCommand::PlaylistRemove { positions }` (`src/api/websocket_v1.rs`): the
positions are sorted ascending (`positions.sort()`) and then iterated in
reverse (`positions.iter().rev()`), one `playlist_remove_id` per position. -/
def playlistRemoveCalls (positions : List ℕ) : List ℕ :=
  (positions.insertionSort (· ≤ ·)).reverse

/-- C5: the removal calls are exactly the given positions, issued in
descending order; for `positions = [2, 0, 3]` the backend receives `3, 2, 0`. -/
theorem C5_playlist_remove (positions : List ℕ) :
    (playlistRemoveCalls positions).Sorted (· ≥ ·) ∧
    (playlistRemoveCalls positions).Perm positions ∧
    playlistRemoveCalls [2, 0, 3] = [3, 2, 0] := by
  refine ⟨?_, ?_, by decide⟩
  · rw [playlistRemoveCalls, List.Sorted, List.pairwise_reverse]
    show (List.insertionSort (· ≤ ·) positions).Pairwise fun a b => a ≤ b
    exact List.sorted_insertionSort _ positions
  · exact (List.reverse_perm _).trans (List.perm_insertionSort _ positions)

/-! ## Websocket session handshake (`src/api/websocket_v1.rs`) -/

/-- Rust `LoopProperty` from mpvipc; `No` means not looping. -/
inductive LoopProperty
  | No
  | Inf
  | N (n : ℕ)
  deriving DecidableEq

/-- Outcomes of the individual mpv reads performed by `get_initial_state`.
`F` stands for `f64` values and `V` for raw JSON values, both opaque here;
`Except Unit` marks a failed backend call.  The two `_array` fields carry
`some xs` exactly when the call succeeded with a JSON array. -/
structure SnapshotFetch (F V : Type) where
  demuxer_cache_state : Except Unit (Option V)
  chapter_list_array : Except Unit (Option (List V))
  percent_pos : Except Unit (Option F)
  file_path : Except Unit String
  duration : Except Unit F
  playlist_is_looping : Except Unit LoopProperty
  mute : Except Unit (Option Bool)
  is_playing : Except Unit Bool
  paused_for_cache : Except Unit (Option Bool)
  playlist : Except Unit (List V)
  track_list_array : Except Unit (Option (List V))
  volume : Except Unit F

/-- Rust `Result::unwrap_or`. -/
def unwrapOr {α : Type} (d : α) : Except Unit α → α
  | .ok a => a
  | .error _ => d

/-- Rust struct `InitialState` from `websocket_v1.rs`. -/
structure InitialState (F V : Type) where
  cached_timestamp : Option F
  chapters : List V
  connections : ℕ
  current_percent_pos : Option F
  current_track : String
  duration : F
  is_looping : Bool
  is_muted : Bool
  is_playing : Bool
  is_paused_for_cache : Bool
  playlist : List V
  tracks : List V
  volume : F

/-- Rust `get_initial_state`: every backend read is defaulted on failure, so
building the snapshot cannot fail.  `fzero` stands for `0.0`, `cache_end` for
the JSON extraction of `data.cache-end`, `is_sub` for the filter keeping
tracks whose type is `sub`, and `connections` is `id_pool.id_count()`. -/
def get_initial_state {F V : Type} (fzero : F) (cache_end : V → Option F)
    (is_sub : V → Bool) (fetch : SnapshotFetch F V) (connections : ℕ) :
    InitialState F V where
  cached_timestamp := (unwrapOr none fetch.demuxer_cache_state).bind cache_end
  chapters :=
    match fetch.chapter_list_array with
    | .ok (some chapters) => chapters
    | _ => []
  connections := connections
  current_percent_pos := unwrapOr none fetch.percent_pos
  current_track := unwrapOr "" fetch.file_path
  duration := unwrapOr fzero fetch.duration
  is_looping := decide (unwrapOr .No fetch.playlist_is_looping ≠ .No)
  is_muted := (unwrapOr (some false) fetch.mute).getD false
  is_playing := unwrapOr false fetch.is_playing
  is_paused_for_cache := (unwrapOr (some false) fetch.paused_for_cache).getD false
  playlist := unwrapOr [] fetch.playlist
  tracks :=
    match fetch.track_list_array with
    | .ok (some tracks) => tracks.filter is_sub
    | _ => []
  volume := unwrapOr fzero fetch.volume

/-- A snapshot fetch in which every backend call fails. -/
def SnapshotFetch.allFailed (F V : Type) : SnapshotFetch F V :=
  ⟨.error (), .error (), .error (), .error (), .error (), .error (),
   .error (), .error (), .error (), .error (), .error (), .error ()⟩

/-- Results of the fallible steps of `handle_connection` between accepting the
socket and spawning the connection loop, in program order: the
connection-counter notification, the snapshot send, the subscribe calls. -/
structure HandshakeEffects where
  counter_send_ok : Bool
  snapshot_send_ok : Bool
  subscribe_ok : Bool

/-- How the handshake ends: reaching the `Active` connection loop, or a panic
of the session task from one of the two `unwrap()` calls. -/
inductive HandshakeResult
  | proceedsToActive
  | panics
  deriving DecidableEq

/-- Handshake control flow of `handle_connection`: a failed counter send is
only logged; a failed snapshot send (`socket.send(message).await.unwrap()`) or
a failed subscribe (`setup_default_subscribes(&mpv).await.unwrap()`) panics
the session task; otherwise the session proceeds to `connection_loop`. -/
def handshake (eff : HandshakeEffects) : HandshakeResult :=
  if eff.snapshot_send_ok = false then .panics
  else if eff.subscribe_ok = false then .panics
  else .proceedsToActive

/-! ## Claim C6: handshake failure handling (corrected) -/

/-- C6, counterexample to the claim as stated: a failed subscribe (or a failed
snapshot send) does not proceed to the Active loop — the `unwrap()` panics the
session task. -/
theorem C6_counterexample :
    handshake ⟨true, true, false⟩ = .panics ∧
    handshake ⟨true, true, false⟩ ≠ .proceedsToActive ∧
    handshake ⟨true, false, true⟩ = .panics := by
  refine ⟨rfl, ?_, rfl⟩
  intro h
  cases h

/-- C6, amended: failures while fetching the individual snapshot properties
are absorbed by per-field defaults (`get_initial_state` is total, returning
the all-default snapshot even when every read fails) and a failed
connection-counter notification is only logged; but the session reaches the
`Active` loop exactly when the snapshot send and the subscribe calls both
succeed — a failure of either panics the session task instead. -/
theorem C6_handshake (eff : HandshakeEffects) :
    (handshake eff = .proceedsToActive
        ↔ eff.snapshot_send_ok = true ∧ eff.subscribe_ok = true) ∧
    (∀ b, handshake { eff with counter_send_ok := b } = handshake eff) ∧
    (∀ (F V : Type) (fzero : F) (cache_end : V → Option F) (is_sub : V → Bool) (n : ℕ),
        get_initial_state fzero cache_end is_sub (SnapshotFetch.allFailed F V) n
          = ⟨none, [], n, none, "", fzero, false, false, false, false, [], [], fzero⟩) := by
  refine ⟨?_, fun b => rfl, fun F V fzero cache_end is_sub n => rfl⟩
  rcases eff with ⟨a, b, c⟩
  cases b <;> cases c <;> simp [handshake]

/-! ## Claim C7: subscription owner identities (corrected) -/

/-- Rust constant `DEFAULT_PROPERTY_SUBSCRIPTIONS` from `websocket_v1.rs`. -/
def DEFAULT_PROPERTY_SUBSCRIPTIONS : List String :=
  ["chapter-list", "demuxer-cache-state", "duration", "loop-playlist", "mute",
   "pause", "paused-for-cache", "percent-pos", "playlist", "track-list", "volume"]

/-- Owner-id/property pairs of the `observe_property` calls issued by
`setup_default_subscribes`: the owner id is the literal `0` for every
property, independent of the session. -/
def setupDefaultSubscribeCalls : List (ℕ × String) :=
  DEFAULT_PROPERTY_SUBSCRIPTIONS.map (fun property => (0, property))

/-- Owner id passed to `mpv.unobserve_property` when `handle_connection`
drains: the session's own `channel_id`. -/
def drainUnobserveTarget (channel_id : ℕ) : ℕ :=
  channel_id

/-- C7, counterexample to the claim as stated: for a session whose allocated
identity is `1` (the first id the pool issues), the handshake subscriptions
are not owned by the session identity — every observe call uses owner `0`. -/
theorem C7_counterexample :
    ¬ (∀ call ∈ setupDefaultSubscribeCalls, call.1 = drainUnobserveTarget 1) ∧
    (0, "chapter-list") ∈ setupDefaultSubscribeCalls ∧ (0 : ℕ) ≠ 1 := by
  refine ⟨?_, by decide, by decide⟩
  intro h
  have := h (0, "chapter-list") (by decide)
  simp [drainUnobserveTarget] at this

/-- C7, amended: every handshake subscribe call is issued with the fixed owner
id `0`, not the session identity; during draining `unobserve_property` targets
the session's own identity; and since `request_id` only issues positive ids,
the drain-time unsubscribe owner never matches the owner `0` under which the
default subscriptions were created. -/
theorem C7_subscription_owners (channel_id : ℕ) (h : 1 ≤ channel_id) :
    (∀ call ∈ setupDefaultSubscribeCalls, call.1 = 0) ∧
    drainUnobserveTarget channel_id = channel_id ∧
    (∀ call ∈ setupDefaultSubscribeCalls, call.1 ≠ drainUnobserveTarget channel_id) ∧
    (∀ p : IdPool, p.Inv → ∀ i q, p.request_id = .ok (i, q) → 1 ≤ i) := by
  refine ⟨by decide, rfl, ?_, ?_⟩
  · intro call hc
    have hall : ∀ c ∈ setupDefaultSubscribeCalls, c.1 = 0 := by decide
    rw [hall call hc, drainUnobserveTarget]
    omega
  · intro p hInv i q hreq
    by_cases hne : p.free_ids.Nonempty
    · rw [p.request_id_of_nonempty hne] at hreq
      simp only [Except.ok.injEq, Prod.mk.injEq] at hreq
      obtain ⟨hi, _⟩ := hreq
      have hmem := hInv.1 (p.free_ids.min'_mem hne)
      rw [← hi]
      exact (Finset.mem_Icc.mp hmem).1
    · have hempty := Finset.not_nonempty_iff_eq_empty.mp hne
      by_cases hlt : p.id_count < p.max_id
      · rw [p.request_id_of_empty_lt hempty hlt] at hreq
        simp only [Except.ok.injEq, Prod.mk.injEq] at hreq
        obtain ⟨hi, _⟩ := hreq
        omega
      · rw [p.request_id_of_full hempty hlt] at hreq
        simp at hreq

/-- Witness for C7 at session identity `1`, with the pool part applied to a
fresh pool of capacity `10` issuing id `1`. -/
theorem C7_subscription_owners_witness :
    ((∀ call ∈ setupDefaultSubscribeCalls, call.1 = 0) ∧
     drainUnobserveTarget 1 = 1 ∧
     (∀ call ∈ setupDefaultSubscribeCalls, call.1 ≠ drainUnobserveTarget 1) ∧
     (∀ p : IdPool, p.Inv → ∀ i q, p.request_id = .ok (i, q) → 1 ≤ i)) ∧
    (1 : ℕ) ≤ 1 := by
  have main := C7_subscription_owners 1 (by decide)
  exact ⟨main, main.2.2.2 (IdPool.new_with_max_limit 10) (IdPool.Inv.new 10)
    1 ⟨10, ∅, 1⟩ (by decide)⟩

/-! ## Claim C8: per-message decoding in the connection loop -/

/-- A JSON value (`serde_json::Value`); numbers are carried as integers since
the decoders below only pass them through. -/
inductive Json
  | null
  | bool (b : Bool)
  | num (n : Int)
  | str (s : String)
  | arr (elems : List Json)
  | obj (fields : List (String × Json))

/-- Field lookup on a JSON object. -/
def Json.get : Json → String → Option Json
  | .obj fields, key => fields.lookup key
  | _, _ => none

def Json.asStr : Json → Option String
  | .str s => some s
  | _ => none

def Json.asInt : Json → Option Int
  | .num n => some n
  | _ => none

def Json.asNat : Json → Option ℕ
  | .num n => if 0 ≤ n then some n.toNat else none
  | _ => none

def Json.asBool : Json → Option Bool
  | .bool b => some b
  | _ => none

def Json.asStrList : Json → Option (List String)
  | .arr elems => elems.mapM Json.asStr
  | _ => none

def Json.asNatList : Json → Option (List ℕ)
  | .arr elems => elems.mapM Json.asNat
  | _ => none

/-- Rust enum `WSCommand` from `websocket_v1.rs` (float payloads carried as
`Int` stand-ins — only the decode shape matters here; `from`/`to` renamed
`from_pos`/`to_pos`). -/
inductive WSCommand
  | Load (urls : List String)
  | TogglePlayback
  | Volume (volume : Int)
  | Time (time : Int)
  | PlaylistNext
  | PlaylistPrevious
  | PlaylistGoto (position : ℕ)
  | PlaylistClear
  | PlaylistRemove (positions : List ℕ)
  | PlaylistMove (from_pos : ℕ) (to_pos : ℕ)
  | Shuffle
  | SetSubtitleTrack (track : Option ℕ)
  | SetLooping (value : Bool)
  deriving DecidableEq

/-- The serde decode `serde_json::from_value::<WSCommand>`: internally tagged
by the `type` field with `snake_case` variant names; a missing or non-string
tag, an unknown tag, or an ill-typed payload field is a decode error. -/
def parseWSCommand (j : Json) : Except String WSCommand :=
  match j.get "type" with
  | some (.str tag) =>
    if tag = "load" then
      match (j.get "urls").bind Json.asStrList with
      | some urls => .ok (.Load urls)
      | none => .error "invalid field urls"
    else if tag = "toggle_playback" then .ok .TogglePlayback
    else if tag = "volume" then
      match (j.get "volume").bind Json.asInt with
      | some v => .ok (.Volume v)
      | none => .error "invalid field volume"
    else if tag = "time" then
      match (j.get "time").bind Json.asInt with
      | some t => .ok (.Time t)
      | none => .error "invalid field time"
    else if tag = "playlist_next" then .ok .PlaylistNext
    else if tag = "playlist_previous" then .ok .PlaylistPrevious
    else if tag = "playlist_goto" then
      match (j.get "position").bind Json.asNat with
      | some p => .ok (.PlaylistGoto p)
      | none => .error "invalid field position"
    else if tag = "playlist_clear" then .ok .PlaylistClear
    else if tag = "playlist_remove" then
      match (j.get "positions").bind Json.asNatList with
      | some ps => .ok (.PlaylistRemove ps)
      | none => .error "invalid field positions"
    else if tag = "playlist_move" then
      match (j.get "from").bind Json.asNat, (j.get "to").bind Json.asNat with
      | some a, some b => .ok (.PlaylistMove a b)
      | _, _ => .error "invalid move fields"
    else if tag = "shuffle" then .ok .Shuffle
    else if tag = "set_subtitle_track" then
      match j.get "track" with
      | none => .ok (.SetSubtitleTrack none)
      | some .null => .ok (.SetSubtitleTrack none)
      | some v =>
        match v.asNat with
        | some t => .ok (.SetSubtitleTrack (some t))
        | none => .error "invalid field track"
    else if tag = "set_looping" then
      match (j.get "value").bind Json.asBool with
      | some b => .ok (.SetLooping b)
      | none => .error "invalid field value"
    else .error ("unknown variant " ++ tag)
  | _ => .error "missing type tag"

/-- One inbound websocket frame as seen by the `socket.recv()` arm of
`connection_loop`; for a text frame the payload is the result of
`serde_json::from_str` (`none` = the content is not valid JSON). -/
inductive InboundFrame
  | close
  | ping
  | text (parsed : Option Json)
  | binary

/-- What the receive arm does with one frame. -/
inductive LoopAction
  | closeSession
  | keepOpen
  | bailOut
  deriving DecidableEq

/-- Result of handling one inbound frame: the loop action, the command handed
to execution when decoding succeeded, and whether an error was logged. -/
structure LoopStepResult where
  action : LoopAction
  executed : Option WSCommand
  logged_error : Bool
  deriving DecidableEq

/-- The `socket.recv()` arm of `connection_loop`, with command execution
outcomes supplied by `exec_fails`: a close frame returns from the loop
normally; a ping is ponged and the loop continues; a non-text frame or text
that is not valid JSON bails out of the loop; a JSON text whose decode to
`WSCommand` fails is logged and the loop continues; a decoded command is
executed, an execution failure likewise being only logged. -/
def connectionLoopStep (exec_fails : WSCommand → Bool) :
    InboundFrame → LoopStepResult
  | .close => ⟨.closeSession, none, false⟩
  | .ping => ⟨.keepOpen, none, false⟩
  | .binary => ⟨.bailOut, none, false⟩
  | .text none => ⟨.bailOut, none, false⟩
  | .text (some j) =>
    match parseWSCommand j with
    | .ok cmd => ⟨.keepOpen, some cmd, exec_fails cmd⟩
    | .error _ => ⟨.keepOpen, none, true⟩

/-- Run the receive arm over successive frames until the session closes or the
loop bails; returns the final action and the commands dispatched in order. -/
def connectionLoopRun (exec_fails : WSCommand → Bool) :
    List InboundFrame → LoopAction × List WSCommand
  | [] => (.keepOpen, [])
  | f :: rest =>
    let r := connectionLoopStep exec_fails f
    match r.action with
    | .keepOpen =>
      let rest_result := connectionLoopRun exec_fails rest
      (rest_result.1, r.executed.toList ++ rest_result.2)
    | a => (a, r.executed.toList)

/-- The frame content `type = Explode`, an unknown tag. -/
def explodeJson : Json := .obj [("type", .str "Explode")]

/-- The frame content `type = toggle_playback`, a valid command. -/
def togglePlaybackJson : Json := .obj [("type", .str "toggle_playback")]

/-- C8: a text frame whose JSON does not decode to a `WSCommand` is logged and
leaves the session open, with nothing executed; the loop treats every frame
independently, so a later valid frame is still executed — concretely, the
unknown tag `Explode` is rejected with an unknown-variant decode error, the
session stays open, and a following `toggle_playback` frame still runs. -/
theorem C8_decode_failure (exec_fails : WSCommand → Bool) (j : Json) :
    (∀ e, parseWSCommand j = .error e →
        connectionLoopStep exec_fails (.text (some j)) = ⟨.keepOpen, none, true⟩) ∧
    parseWSCommand explodeJson = .error "unknown variant Explode" ∧
    connectionLoopRun (fun _ => false)
        [.text (some explodeJson), .text (some togglePlaybackJson)]
      = (.keepOpen, [.TogglePlayback]) := by
  refine ⟨?_, rfl, rfl⟩
  intro e h
  have hstep : connectionLoopStep exec_fails (.text (some j))
      = match parseWSCommand j with
        | .ok cmd => ⟨.keepOpen, some cmd, exec_fails cmd⟩
        | .error _ => ⟨.keepOpen, none, true⟩ := rfl
  rw [hstep, h]

/-- Witness for C8: the decode-failure step applied to the `Explode` frame. -/
theorem C8_decode_failure_witness :
    connectionLoopStep (fun _ => false) (.text (some explodeJson))
      = ⟨.keepOpen, none, true⟩ :=
  (C8_decode_failure (fun _ => false) explodeJson).1 "unknown variant Explode" rfl

end Greg
